import Mathlib

/-!
Shallow embedding of `src/hello.py` (the frenchvocab pipeline) and proofs of
the specification claims about it.

Modelling conventions, used throughout:
* Python strings are Lean `String`s; `str.strip()` is `pyStrip` below,
  `str.lower()` is `pyLower`, and `x in s` (substring test) is
  `pyContains`.
* Every remote HTTP interaction is a value of type `Except Unit β`:
  `.error ()` stands for any exception raised inside the corresponding
  `try` block (transport error, timeout, malformed JSON, missing key that
  raises, ...), and `.ok v` for a response that parsed to shape `v`.
  A function of the code is then a total Lean function of those values,
  which is exactly the "never raises past this component" catch structure
  of the source.
* Python sets are modelled by lists together with their membership test
  (Python guarantees `x in set(xs) ↔ x in xs`, which is all the code uses).
* The unseeded `random.sample` and the spaCy tagger are modelled as
  explicit function parameters, constrained by hypotheses in the theorems.
-/

namespace FrenchVocab

/-! ## Character and string utilities -/

/-- The apostrophe character, written via its code point. -/
def apos : Char := Char.ofNat 39

/-- Python `str.lower` restricted to the characters this program meets:
ASCII `A`-`Z` and the Latin-1 uppercase letters `À`-`Þ` (except `×`) are
mapped down by 32 code points; every other character is unchanged. -/
def pyLowerChar (c : Char) : Char :=
  if (65 ≤ c.toNat ∧ c.toNat ≤ 90) ∨
     (192 ≤ c.toNat ∧ c.toNat ≤ 222 ∧ c.toNat ≠ 215) then
    Char.ofNat (c.toNat + 32)
  else c

/-- Python `str.lower` on strings (see `pyLowerChar` for the coverage). -/
def pyLower (s : String) : String := String.mk (s.data.map pyLowerChar)

/-- Contiguous-substring test on character lists: `containsSub hay needle`
is true iff `needle` occurs inside `hay`. -/
def containsSub (hay needle : List Char) : Bool :=
  match hay with
  | [] => needle.isEmpty
  | _ :: t => needle.isPrefixOf hay || containsSub t needle

/-- Python's `needle in hay` substring test on strings. -/
def pyContains (hay needle : String) : Bool := containsSub hay.data needle.data

/-- Python `str.strip()`: drop leading and trailing whitespace. (Defined on
the character list so that it reduces inside the kernel; `String.trim`
agrees but is not kernel-reducible.) -/
def pyStrip (s : String) : String :=
  String.mk (((s.data.dropWhile Char.isWhitespace).reverse.dropWhile
    Char.isWhitespace).reverse)

/-- Python `str.startswith`. -/
def pyStartsWith (s p : String) : Bool := p.data.isPrefixOf s.data

/-- Split a character list on a separator character, keeping empty
pieces (the list-level core of Python `str.split(sep)`). -/
def splitCharList (sep : Char) : List Char → List (List Char)
  | [] => [[]]
  | c :: t =>
    match splitCharList sep t with
    | [] => [[]]
    | h :: rest => if c = sep then [] :: h :: rest else (c :: h) :: rest

/-- Python `str.splitlines` as the code needs it: split on `\n` (a `\r`
left at a line end is removed by the `strip` the code applies to each
line). A trailing newline yields a final empty piece, which no line filter
of the code accepts, so the difference from Python (which drops it) is
unobservable. -/
def pySplitLines (s : String) : List String :=
  (splitCharList (Char.ofNat 10) s.data).map String.mk

/-! ## `_clean_wikicode` (src/hello.py lines 57-62)

Each of the four `re.sub` passes and the final whitespace collapse is a
fueled scanner over the character list; the fuel is the list length, which
every step strictly decreases, so the fallback branch is never reached on
the initial call. -/

/-- First pass: remove every match of `\{\{[^}]*}}` (template blocks). -/
def stripTemplates : Nat → List Char → List Char
  | 0, cs => cs
  | _ + 1, [] => []
  | fuel + 1, c :: cs =>
    if c = '{' then
      match cs with
      | '{' :: rest =>
        let body := rest.takeWhile (fun x => x ≠ '}')
        match rest.drop body.length with
        | '}' :: '}' :: rest2 => stripTemplates fuel rest2
        | _ => c :: stripTemplates fuel cs
      | _ => c :: stripTemplates fuel cs
    else c :: stripTemplates fuel cs

/-- Second pass: replace every match of `\[\[[^\]|]+\|([^]]+)]]` (piped
wiki links) by its label group. -/
def unwrapPiped : Nat → List Char → List Char
  | 0, cs => cs
  | _ + 1, [] => []
  | fuel + 1, c :: cs =>
    if c = '[' then
      match cs with
      | '[' :: rest =>
        let target := rest.takeWhile (fun x => x ≠ ']' ∧ x ≠ '|')
        match target, rest.drop target.length with
        | _ :: _, '|' :: afterBar =>
          let label := afterBar.takeWhile (fun x => x ≠ ']')
          match label, afterBar.drop label.length with
          | _ :: _, ']' :: ']' :: rest2 => label ++ unwrapPiped fuel rest2
          | _, _ => c :: unwrapPiped fuel cs
        | _, _ => c :: unwrapPiped fuel cs
      | _ => c :: unwrapPiped fuel cs
    else c :: unwrapPiped fuel cs

/-- Third pass: replace every match of `\[\[([^]]+)]]` (plain wiki links)
by its content group. -/
def unwrapLinks : Nat → List Char → List Char
  | 0, cs => cs
  | _ + 1, [] => []
  | fuel + 1, c :: cs =>
    if c = '[' then
      match cs with
      | '[' :: rest =>
        let body := rest.takeWhile (fun x => x ≠ ']')
        match body, rest.drop body.length with
        | _ :: _, ']' :: ']' :: rest2 => body ++ unwrapLinks fuel rest2
        | _, _ => c :: unwrapLinks fuel cs
      | _ => c :: unwrapLinks fuel cs
    else c :: unwrapLinks fuel cs

/-- Fourth pass: remove every match of `''+` (runs of two or more
apostrophes, i.e. wiki emphasis markers). -/
def stripEmphasis : Nat → List Char → List Char
  | 0, cs => cs
  | _ + 1, [] => []
  | fuel + 1, c :: cs =>
    if c = apos then
      match cs with
      | c2 :: rest =>
        if c2 = apos then stripEmphasis fuel (rest.dropWhile (fun x => x = apos))
        else c :: stripEmphasis fuel cs
      | [] => [c]
    else c :: stripEmphasis fuel cs

/-- Fifth pass: `re.sub(r"\s+", " ", text)` — collapse every whitespace run
to a single space. (Python `\s` also covers form feed and vertical tab;
`Char.isWhitespace` covers space, tab, CR and LF, the ones that occur.) -/
def collapseWs : Nat → List Char → List Char
  | 0, cs => cs
  | _ + 1, [] => []
  | fuel + 1, c :: cs =>
    if c.isWhitespace then ' ' :: collapseWs fuel (cs.dropWhile Char.isWhitespace)
    else c :: collapseWs fuel cs

/-- `_clean_wikicode` (src/hello.py lines 57-62): the four regex passes in
source order, then whitespace collapse and strip. -/
def cleanWikicode (text : String) : String :=
  let t1 := stripTemplates text.data.length text.data
  let t2 := unwrapPiped t1.length t1
  let t3 := unwrapLinks t2.length t2
  let t4 := stripEmphasis t3.length t3
  pyStrip (String.mk (collapseWs t4.length t4))

/-! ## Lexicon filter (src/hello.py lines 35-50) -/

/-- One row of the FLELex frequency table, with the two frequency columns
the code reads. The numeric columns are modelled as rationals (the CSV
holds decimal frequencies). -/
structure LexRow where
  word : String
  freq_total : ℚ
  freq_C2 : ℚ
deriving DecidableEq

/-- `rare_mask` (src/hello.py lines 39-41): the per-row boolean
`(freq_C2 > 0) & (freq_total < 100) & (word.str.len() > 6)`. -/
def rare_mask (r : LexRow) : Bool :=
  decide (0 < r.freq_C2) && decide (r.freq_total < 100) && decide (6 < r.word.length)

/-- `advanced_lemmas` (src/hello.py line 50):
`set(df.loc[rare_mask, "word"].str.lower())`, modelled as the list of
lowercased words of the qualifying rows (membership in the Python set is
membership in this list). -/
def advanced_lemmas (rows : List LexRow) : List String :=
  (rows.filter rare_mask).map (fun r => pyLower r.word)

/-! ## Candidate extraction (src/hello.py lines 178-237) -/

/-- One spaCy token as the code reads it: `tok.lemma_`, `tok.pos_`,
`tok.is_alpha`, and `len(tok)` (the character length of the token text),
written `text_len`. -/
structure Token where
  lemma_ : String
  pos_ : String
  is_alpha : Bool
  text_len : Nat
deriving DecidableEq

/-- `static_excluded` (src/hello.py lines 194-207), verbatim. -/
def static_excluded : List String :=
  ["français", "française", "francais", "américain", "américaine", "americain",
   "france", "états-unis", "etats-unis", "europe", "paris", "washington",
   "macron", "trump", "biden", "netanyahu", "israël", "israel", "palestine",
   "gaza", "ukraine", "russie", "russia", "poutine", "zelensky", "onu",
   "pays", "ville", "territoire", "gouvernement", "président", "présidente",
   "avoir", "être", "faire", "mettre", "dire", "aller", "voir", "donner",
   "bon", "mauvais", "beau", "grand", "petit", "important", "nouveau",
   "lundi", "mardi", "mercredi", "jeudi", "vendredi", "samedi", "dimanche",
   "janvier", "février", "mars", "avril", "mai", "juin", "juillet", "août",
   "septembre", "octobre", "novembre", "décembre",
   "donc", "mais", "ou", "et", "car", "cependant", "pourtant", "toutefois",
   "ainsi", "alors", "puis", "ensuite", "également"]

/-- The `common_words` set read from `data/frequent_french_words.txt`
(src/hello.py lines 186-190): `none` models an unreadable file (the
`except` arm, giving the empty set); `some lines` models the file's lines,
of which the non-blank ones are stripped and lowercased. -/
def common_words_of (file : Option (List String)) : List String :=
  match file with
  | none => []
  | some lines => (lines.filter (fun w => pyStrip w ≠ "")).map (fun w => pyLower (pyStrip w))

/-- The token filter of the list comprehension (src/hello.py lines 227-237),
with the conjuncts in source order. `adv` is the advanced-lemma set and
`excl` the combined exclusion set. -/
def token_passes (adv excl : List String) (t : Token) : Bool :=
  t.is_alpha && decide (6 < t.text_len) && decide (pyLower t.lemma_ ∈ adv) &&
    decide (t.pos_ ∈ (["NOUN", "VERB", "ADJ", "ADV"] : List String)) &&
    !(decide (pyLower t.lemma_ ∈ excl))

/-- `clean_and_count_words` (src/hello.py lines 178-237). `tagger = none`
models spaCy being unavailable (the function then returns `[]` for the
article); otherwise `tagger` is the `nlp` tokenisation. `commonFile` is as
in `common_words_of`. Returns the `(lemma.lower(), pos)` pairs of the
tokens passing all five filters, in token order. -/
def clean_and_count_words (tagger : Option (String → List Token))
    (commonFile : Option (List String)) (adv : List String)
    (text : String) : List (String × String) :=
  match tagger with
  | none => []
  | some nlp =>
    let excluded_words := static_excluded ++ common_words_of commonFile
    ((nlp text).filter (token_passes adv excluded_words)).map
      (fun t => (pyLower t.lemma_, t.pos_))

/-- The five candidate predicates as the spec states them (§4.3), for the
refinement comparison with `token_passes`. -/
def spec_candidate (adv excl : List String) (t : Token) : Prop :=
  t.is_alpha = true ∧ 6 < t.text_len ∧ pyLower t.lemma_ ∈ adv ∧
    (t.pos_ = "NOUN" ∨ t.pos_ = "VERB" ∨ t.pos_ = "ADJ" ∨ t.pos_ = "ADV") ∧
    pyLower t.lemma_ ∉ excl

instance (adv excl : List String) (t : Token) : Decidable (spec_candidate adv excl t) := by
  unfold spec_candidate; infer_instance

/-! ## Definition resolver `fetch_definition` (src/hello.py lines 78-128) -/

/-- One element of a `definitions` array of the dictionary API: its
optional `definition` field. -/
structure ADef where
  definition : Option String
deriving DecidableEq

/-- One element of the `meanings` array: its `definitions` list
(`.get("definitions", [])`). -/
structure AMeaning where
  definitions : List ADef
deriving DecidableEq

/-- One entry of the dictionary API response: its `meanings` list
(`.get("meanings", [])`). -/
structure AEntry where
  meanings : List AMeaning
deriving DecidableEq

/-- Source A response: an exception, or a status code with the parsed
JSON entry list. -/
abbrev RespA := Except Unit (Nat × List AEntry)

/-- Source B (Wiktionary raw markup) response: an exception, or a status
code with the body text. -/
abbrev RespB := Except Unit (Nat × String)

/-- One element of the Tatoeba `results` array: its optional `text`
field. -/
structure CResult where
  text : Option String
deriving DecidableEq

/-- Source C response: an exception, or a status code with the parsed
`results` list (`.get("results", [])`). -/
abbrev RespC := Except Unit (Nat × List CResult)

/-- The `for m in meanings` loop of source A (src/hello.py lines 84-87):
the first meaning whose (non-empty) `definitions` list has a first element
with a truthy `definition` field yields that raw definition string. -/
def firstMeaningDef : List AMeaning → Option String
  | [] => none
  | m :: ms =>
    match m.definitions with
    | [] => firstMeaningDef ms
    | d :: _ =>
      match d.definition with
      | some s => if s ≠ "" then some s else firstMeaningDef ms
      | none => firstMeaningDef ms

/-- Source A (src/hello.py lines 79-89): `some r` iff the `try` block
reaches a `return`, in which case `r` is the returned string. A non-200
status, an empty entry list (the `[0]` raises, caught by the `except`), no
usable definition, or an exception all yield `none` and fall through. -/
def sourceA (resp : RespA) : Option String :=
  match resp with
  | .error _ => none
  | .ok (status, entries) =>
    if status = 200 then
      match entries with
      | [] => none
      | e :: _ => (firstMeaningDef e.meanings).map pyStrip
    else none

/-- The `for line in w.text.splitlines()` loop of source B (src/hello.py
lines 105-111): the first stripped line that starts with `#` but not `##`,
does not contain `étymologie` case-insensitively, and whose cleaned
wikicode is non-empty, yields that cleaned text truncated at the first `.`
or `;` and stripped. -/
def scanDefLines : List String → Option String
  | [] => none
  | l :: ls =>
    let line := pyStrip l
    if pyStartsWith line "#" && !(pyStartsWith line "##") &&
        !(pyContains (pyLower line) "étymologie") then
      let clean := cleanWikicode (String.mk (line.data.dropWhile (fun c => c = '#')))
      if clean ≠ "" then
        some (pyStrip (String.mk (clean.data.takeWhile (fun c => c ≠ '.' ∧ c ≠ ';'))))
      else scanDefLines ls
    else scanDefLines ls

/-- Source B (src/hello.py lines 101-113): scan the body's lines when the
status is 200; `none` on exception, non-200, or no line reaching the
`return`. (`splitlines` is modelled as splitting on `\n`; a `\r` left at
the end of a line is removed by the `strip` the code applies first.) -/
def sourceB (resp : RespB) : Option String :=
  match resp with
  | .error _ => none
  | .ok (status, text) =>
    if status = 200 then scanDefLines (pySplitLines text)
    else none

/-- Source C (src/hello.py lines 118-126): on status 200 with a non-empty
`results` list, return the first result's `text` field (default `""`),
stripped; otherwise fall through. -/
def sourceC (resp : RespC) : Option String :=
  match resp with
  | .error _ => none
  | .ok (status, results) =>
    if status = 200 then
      match results with
      | [] => none
      | r :: _ => some (pyStrip (r.text.getD ""))
    else none

/-- Modelled from the spec: `lexicon_defs`, the source-D local fallback
lexicon of §4.5, is referenced at src/hello.py line 128
(`lexicon_defs.get(word.lower(), "")`) but defined nowhere under `src/`.
Per the spec it is an in-process mapping from words to definitions whose
lookup "returns empty string if absent"; it is therefore modelled as a
`String → Option String` parameter, with the `.get(..., "")` default
applied at the call site. -/
def lexicon_defs_get (lexicon_defs : String → Option String) (key : String) : String :=
  (lexicon_defs key).getD ""

/-- `fetch_definition` (src/hello.py lines 78-128): the four-source chain.
Each source is a total function of its (possibly failing) response, so no
exception escapes; the first source whose `try` block reaches a `return`
wins, and otherwise the local `lexicon_defs` lookup (source D, modelled
from the spec, see `lexicon_defs_get`) is returned. -/
def fetch_definition (lexicon_defs : String → Option String) (word : String)
    (ra : RespA) (rb : RespB) (rc : RespC) : String :=
  match sourceA ra with
  | some r => r
  | none =>
    match sourceB rb with
    | some r => r
    | none =>
      match sourceC rc with
      | some r => r
      | none => lexicon_defs_get lexicon_defs (pyLower word)

/-! ## RSS fetching (src/hello.py lines 155-169) -/

/-- One feed entry as the code reads it: its optional `summary` and
`description` fields. -/
structure Entry where
  summary : Option String
  description : Option String
deriving DecidableEq

/-- One feed: an exception while parsing (caught, logged, next feed), or
its entry list. -/
abbrev RSSFeed := Except Unit (List Entry)

/-- The inner `for entry in parsed.entries` loop of
`fetch_articles_from_rss` (src/hello.py lines 160-166): append the summary
(else the description, else nothing), then return early if the article
count has reached `max_articles`. The boolean records whether the `return`
was taken. -/
def collectEntries (max_articles : Nat) (articles : List String) :
    List Entry → List String × Bool
  | [] => (articles, false)
  | e :: es =>
    let articles2 :=
      match e.summary with
      | some s => articles ++ [s]
      | none =>
        match e.description with
        | some d => articles ++ [d]
        | none => articles
    if max_articles ≤ articles2.length then (articles2, true)
    else collectEntries max_articles articles2 es

/-- `fetch_articles_from_rss` (src/hello.py lines 155-169): loop over the
feeds, a parse exception moving to the next feed, an early `return` inside
the entry loop ending the whole function. -/
def fetch_articles_from_rss (max_articles : Nat) (feeds : List RSSFeed) : List String :=
  go [] feeds
where
  /-- The outer `for feed in self.rss_feeds` loop, carrying `articles`. -/
  go (articles : List String) : List RSSFeed → List String
    | [] => articles
    | f :: fs =>
      match f with
      | .error _ => go articles fs
      | .ok entries =>
        match collectEntries max_articles articles entries with
        | (articles2, true) => articles2
        | (articles2, false) => go articles2 fs

/-! ## Example resolver `find_example_sentence` (src/hello.py lines 245-263) -/

/-- Wiki-extract response: an exception, or a status code with the list of
page objects' optional `extract` fields, in `pages.values()` order. -/
abbrev RespWiki := Except Unit (Nat × List (Option String))

/-- The `for s in self.article_sentences` loop (src/hello.py lines
246-248): the first sentence whose lowercased text contains `word` as a
substring. -/
def firstLocal (word : String) : List String → Option String
  | [] => none
  | s :: ss => if pyContains (pyLower s) word then some s else firstLocal word ss

/-- The `for p in pages.values()` loop (src/hello.py lines 257-260): the
first page whose `extract` (default `""`) has a non-empty text before the
first `.` yields that text with a `.` appended. -/
def wikiFirstSentence : List (Option String) → Option String
  | [] => none
  | p :: ps =>
    let ext := String.mk ((p.getD "").data.takeWhile (fun c => c ≠ '.'))
    if ext ≠ "" then some (ext ++ ".") else wikiFirstSentence ps

/-- The synthetic fallback sentence (src/hello.py line 263):
`f"Exemple par défaut : '{word}' est un mot avancé à connaître."`. -/
def default_example (word : String) : String :=
  "Exemple par défaut : " ++ String.singleton apos ++ word ++ String.singleton apos ++
    " est un mot avancé à connaître."

/-- `find_example_sentence` (src/hello.py lines 245-263): local sentence
scan first; on miss, the wiki-extract lookup (any exception caught); on
total miss, the synthetic default sentence. -/
def find_example_sentence (sentences : List String) (word : String)
    (resp : RespWiki) : String :=
  match firstLocal word sentences with
  | some s => pyStrip s
  | none =>
    match resp with
    | .error _ => default_example word
    | .ok (status, pages) =>
      if status = 200 then
        match wikiFirstSentence pages with
        | some e => e
        | none => default_example word
      else default_example word

/-! ## The pipeline `run` (src/hello.py lines 268-321) -/

/-- The sentence splitter of the article loop (src/hello.py line 283):
`re.split(r"[.!?]\s+", txt)` — a separator is one of `.` `!` `?` followed
by a maximal non-empty whitespace run, and is removed. Fueled scanner; the
fuel (the text length) strictly bounds the characters consumed. -/
def splitSentChars : Nat → List Char → List Char → List (List Char)
  | _, acc, [] => [acc.reverse]
  | 0, acc, rest => [acc.reverse ++ rest]
  | fuel + 1, acc, c :: rest =>
    if (c = '.' ∨ c = '!' ∨ c = '?') ∧ (rest.head?.any Char.isWhitespace = true) then
      acc.reverse :: splitSentChars fuel [] (rest.dropWhile Char.isWhitespace)
    else splitSentChars fuel (c :: acc) rest

/-- String-level wrapper of `splitSentChars`. -/
def splitSentences (txt : String) : List String :=
  (splitSentChars txt.data.length [] txt.data).map String.mk

/-- `(définition indisponible)`, the placeholder substituted at
src/hello.py line 301 when `fetch_definition` returns a falsy value. -/
def indispo : String := "(définition indisponible)"

/-- The `uniques` list (src/hello.py line 293): the `(lemma, pos)` pairs
whose count over the whole batch is exactly 1, in batch order (`Counter`
iterates keys in first-insertion order, and a count-1 key's first
insertion is its only occurrence). -/
def uniquesOf (allWords : List (String × String)) : List (String × String) :=
  allWords.filter (fun p => allWords.count p == 1)

/-- Lexicographic, code-point-wise string order — how Python compares the
strings `sorted` is keyed on. (`String`'s built-in order agrees but its
`Decidable` instance does not reduce in the kernel.) -/
def lexLe : List Char → List Char → Bool
  | [], _ => true
  | _ :: _, [] => false
  | a :: as, b :: bs => if a.toNat = b.toNat then lexLe as bs else decide (a.toNat < b.toNat)

/-- Ascending-lemma order on `(lemma, pos)` pairs: the `key=lambda x: x[0]`
of src/hello.py line 294. -/
def lemmaAsc (a b : String × String) : Prop := lexLe a.1.data b.1.data = true

instance : DecidableRel lemmaAsc :=
  fun a b => instDecidableEqBool (lexLe a.1.data b.1.data) true

/-- The `sorted(..., key=lambda x: x[0])` of src/hello.py line 294: sort
the drawn sample by lemma ascending. Python sorts are stable, and the
stable `insertionSort` models that (unlike `mergeSort` it also reduces in
the kernel); on a total preorder both produce the unique stable ascending
order. -/
def raritySort (sample : List (String × String)) : List (String × String) :=
  sample.insertionSort lemmaAsc

/-- The terminal state of a `run` call: the two early returns (which write
no output file), or the normal end of the function, which opens
`data/advanced_flashcard_words.tsv` and writes the header plus one line
per flashcard tuple `(word, definition, sentence, english)`. -/
inductive RunOutcome where
  | noArticles
  | nothingToProcess
  | wrote (flashcards : List (String × String × String × String))
deriving DecidableEq

/-- The external collaborators and global state `run` reads, gathered in
one record: the spaCy tagger and common-word file of
`clean_and_count_words`, the module-level `advanced_lemmas` set, the
remote responses per word for the three definition sources and the wiki
example lookup, the spec-modelled `lexicon_defs` mapping (see
`lexicon_defs_get`), the translation response per definition text
(`.ok t` holding the optional `translatedText` field), and the
`random.sample` draw. -/
structure PipelineEnv where
  tagger : Option (String → List Token)
  commonFile : Option (List String)
  adv : List String
  srcA : String → RespA
  srcB : String → RespB
  srcC : String → RespC
  lexicon_defs : String → Option String
  wikiEx : String → RespWiki
  translate : String → Except Unit (Option String)
  sampleFn : List (String × String) → Nat → List (String × String)

/-- The accumulated `all_words` of the article loop (src/hello.py
lines 281-285). -/
def allWordsOf (env : PipelineEnv) (feeds : List RSSFeed) (max_articles : Nat) :
    List (String × String) :=
  (fetch_articles_from_rss max_articles feeds).flatMap
    (clean_and_count_words env.tagger env.commonFile env.adv)

/-- The accumulated `self.article_sentences` of the article loop
(src/hello.py line 283). -/
def sentencesOf (feeds : List RSSFeed) (max_articles : Nat) : List String :=
  (fetch_articles_from_rss max_articles feeds).flatMap splitSentences

/-- The per-word flashcard assembly of the `for word, pos in sample` loop
(src/hello.py lines 300-316). -/
def makeFlashcard (env : PipelineEnv) (sentences : List String)
    (wp : String × String) : String × String × String × String :=
  let word := wp.1
  let d := fetch_definition env.lexicon_defs word (env.srcA word) (env.srcB word) (env.srcC word)
  let definition := if d = "" then indispo else d
  let sentence := find_example_sentence sentences word (env.wikiEx word)
  let english :=
    if definition ≠ "" ∧ definition ≠ indispo then
      match env.translate definition with
      | .error _ => ""
      | .ok t => t.getD ""
    else ""
  (word, definition, sentence, english)

/-- `run` (src/hello.py lines 268-321): fetch articles (early return when
none), accumulate sentences and candidate words (early return when no
candidates), keep the count-1 pairs, draw `min(30, |uniques|)` of them and
sort by lemma, assemble one flashcard per sampled pair, and write the
output file. -/
def run (env : PipelineEnv) (feeds : List RSSFeed) (max_articles : Nat) : RunOutcome :=
  let articles := fetch_articles_from_rss max_articles feeds
  if articles.isEmpty then .noArticles
  else
    let all_words := allWordsOf env feeds max_articles
    if all_words.isEmpty then .nothingToProcess
    else
      let uniques := uniquesOf all_words
      let sample := raritySort (env.sampleFn uniques (min 30 uniques.length))
      .wrote (sample.map (makeFlashcard env (sentencesOf feeds max_articles)))

/-! ## Helper lemmas -/

/-- A remote wiki-extract lookup that fails or yields nothing: an
exception, a non-200 status, or no page with a usable extract. -/
def wiki_lookup_failed (resp : RespWiki) : Prop :=
  (∃ u, resp = .error u) ∨
    ∃ st pages, resp = .ok (st, pages) ∧ (st ≠ 200 ∨ wikiFirstSentence pages = none)

/-- The case-insensitive containment the spec's §4.6 describes, for the
refinement comparison with the code's `word in s.lower()`. -/
def ci_contains (s word : String) : Bool := pyContains (pyLower s) (pyLower word)

lemma isPrefixOf_append_self (w b : List Char) : w.isPrefixOf (w ++ b) = true := by
  rw [List.isPrefixOf_iff_prefix]
  exact List.prefix_append w b

lemma containsSub_of_infix (a w b : List Char) :
    containsSub (a ++ (w ++ b)) w = true := by
  induction a with
  | nil =>
    simp only [List.nil_append]
    cases hwb : w ++ b with
    | nil =>
      have hw : w = [] := by
        cases w with
        | nil => rfl
        | cons c t => simp at hwb
      subst hw
      simp [containsSub]
    | cons c t =>
      rw [containsSub]
      rw [← hwb, isPrefixOf_append_self]
      simp
  | cons c t ih =>
    rw [List.cons_append, containsSub]
    rw [ih]
    simp

/-- The synthetic default sentence contains the exact word. -/
lemma default_example_contains (word : String) :
    pyContains (default_example word) word = true := by
  have h := containsSub_of_infix
    ("Exemple par défaut : ".data ++ (String.singleton apos).data) word.data
    ((String.singleton apos).data ++ " est un mot avancé à connaître.".data)
  simpa [pyContains, default_example, String.data_append, List.append_assoc] using h

/-- Core of C1: the chain returns the empty string when every source
fails. -/
lemma fetch_definition_all_fail (lexicon_defs : String → Option String)
    (word : String) (ra : RespA) (rb : RespB) (rc : RespC)
    (ha : sourceA ra = none) (hb : sourceB rb = none) (hc : sourceC rc = none)
    (hd : lexicon_defs (pyLower word) = none ∨ lexicon_defs (pyLower word) = some "") :
    fetch_definition lexicon_defs word ra rb rc = "" := by
  rw [fetch_definition, ha, hb, hc]
  rcases hd with hd | hd <;> simp [lexicon_defs_get, hd]

/-- Core of C9: the synthetic default is returned when the local scan
misses and the remote lookup fails or yields nothing. -/
lemma find_example_sentence_fallback (sentences : List String) (word : String)
    (resp : RespWiki) (hlocal : firstLocal word sentences = none)
    (hremote : wiki_lookup_failed resp) :
    find_example_sentence sentences word resp = default_example word := by
  simp only [find_example_sentence, hlocal]
  rcases hremote with ⟨u, hu⟩ | ⟨st, pages, hok, hfail⟩
  · rw [hu]
  · rw [hok]
    rcases hfail with hst | hpages
    · simp [if_neg hst]
    · rcases eq_or_ne st 200 with h200 | h200
      · simp [h200, hpages]
      · simp [if_neg h200]

/-! ## Claim C1 -/

/-- C1: for every word, when all four definition sources fail — source A,
B, C each fail to reach a `return` (in any way: exception, bad status,
empty payload) and the word is absent from the local fallback lexicon (or
mapped to the empty string) — `fetch_definition` returns the empty string.
The resolver is a total function of the arbitrary (including failing)
source responses, so no exception propagates out of it. Source D
(`lexicon_defs`) is modelled from the spec, see `lexicon_defs_get`. -/
theorem fetch_definition_empty_of_all_sources_fail
    (lexicon_defs : String → Option String) (word : String)
    (ra : RespA) (rb : RespB) (rc : RespC)
    (ha : sourceA ra = none) (hb : sourceB rb = none) (hc : sourceC rc = none)
    (hd : lexicon_defs (pyLower word) = none ∨ lexicon_defs (pyLower word) = some "") :
    fetch_definition lexicon_defs word ra rb rc = "" :=
  fetch_definition_all_fail lexicon_defs word ra rb rc ha hb hc hd

/-- Witness for C1: all three remote sources raising and an empty local
lexicon yield the empty string. -/
theorem fetch_definition_empty_of_all_sources_fail_witness :
    fetch_definition (fun _ => none) "mot" (.error ()) (.error ()) (.error ()) = "" :=
  fetch_definition_empty_of_all_sources_fail (fun _ => none) "mot"
    (.error ()) (.error ()) (.error ()) rfl rfl rfl (Or.inl rfl)

/-! ## Claim C7 -/

/-- C7: whenever source A succeeds — HTTP status 200 with a non-empty
parsed entry list whose meanings→definitions scan finds a first usable
definition `s` — the resolver returns that first definition trimmed,
regardless of the responses of sources B and C and of the local lexicon:
the chain short-circuits. -/
theorem fetch_definition_sourceA_short_circuits
    (lexicon_defs : String → Option String) (word : String)
    (e : AEntry) (es : List AEntry) (rb : RespB) (rc : RespC) (s : String)
    (hfirst : firstMeaningDef e.meanings = some s) :
    fetch_definition lexicon_defs word (.ok (200, e :: es)) rb rc = pyStrip s := by
  rw [fetch_definition]
  simp [sourceA, hfirst]

/-- Witness for C7: a concrete 200 response whose first definition is
`" sens premier "` short-circuits past failing B/C/D sources and is
returned trimmed. -/
theorem fetch_definition_sourceA_short_circuits_witness :
    fetch_definition (fun _ => none) "mot"
      (.ok (200, [⟨[⟨[⟨some " sens premier "⟩]⟩]⟩]))
      (.error ()) (.error ()) = pyStrip " sens premier " :=
  fetch_definition_sourceA_short_circuits (fun _ => none) "mot"
    ⟨[⟨[⟨some " sens premier "⟩]⟩]⟩ [] (.error ()) (.error ()) " sens premier " (by decide)

/-! ## Claim C9 -/

/-- C9: for every word, when no locally held sentence matches and the
remote wiki-extract lookup fails or yields nothing (in any way: exception,
non-200 status, or no page with a usable extract), the example resolver
returns the synthetic default sentence, which contains the exact word.
The resolver is a total function of the arbitrary (including failing)
remote response, so this final stage never fails. -/
theorem find_example_sentence_synthetic_fallback (sentences : List String)
    (word : String) (resp : RespWiki)
    (hlocal : firstLocal word sentences = none)
    (hremote : wiki_lookup_failed resp) :
    find_example_sentence sentences word resp = default_example word ∧
      pyContains (default_example word) word = true :=
  ⟨find_example_sentence_fallback sentences word resp hlocal hremote,
   default_example_contains word⟩

/-- Witness for C9: no matching local sentence and a raising remote lookup
yield the synthetic default sentence containing the word. -/
theorem find_example_sentence_synthetic_fallback_witness :
    find_example_sentence ["Rien à voir ici."] "astre" (.error ()) =
        default_example "astre" ∧
      pyContains (default_example "astre") "astre" = true :=
  find_example_sentence_synthetic_fallback ["Rien à voir ici."] "astre" (.error ())
    (by decide) (Or.inl ⟨(), rfl⟩)

/-! ## Claim C8 -/

/-- The first locally matching sentence is returned trimmed, for the
lowercase words the pipeline passes. -/
lemma firstLocal_eq_first_match (word : String) (pre post : List String) (s : String)
    (hw : pyLower word = word)
    (hpre : ∀ s2 ∈ pre, ci_contains s2 word = false)
    (hs : ci_contains s word = true) :
    firstLocal word (pre ++ s :: post) = some s := by
  induction pre with
  | nil =>
    have hs2 : pyContains (pyLower s) word = true := by
      rw [← hw]; exact hs
    simp [firstLocal, hs2]
  | cons p ps ih =>
    have hp : pyContains (pyLower p) word = false := by
      rw [← hw]; exact hpre p (List.mem_cons_self p ps)
    simp only [List.cons_append, firstLocal, hp]
    simp only [Bool.false_eq_true, if_false]
    exact ih (fun s2 h2 => hpre s2 (List.mem_cons_of_mem p h2))

/-- Counterexample to C8 as stated: the word `"Paris"` occurs in the local
sentence `"paris brille."` as a case-insensitive substring, yet the
resolver does not return that sentence — the code tests `word in
s.lower()` without lowercasing the word, so the scan misses, the remote
wiki-extract source is consulted, and its answer is returned instead. -/
theorem find_example_sentence_ci_cex :
    ci_contains "paris brille." "Paris" = true ∧
      find_example_sentence ["paris brille."] "Paris"
          (.ok (200, [some "Le wiki répond. suite"])) = "Le wiki répond." ∧
      ("Le wiki répond." : String) ≠ pyStrip "paris brille." := by
  decide

/-- C8 (amended): for every word equal to its own lowercasing — which
every pipeline query is, lemmas being lowercased on extraction — if some
locally held sentence contains the word as a case-insensitive substring,
the resolver returns the first such sentence trimmed, regardless of the
remote wiki-extract response (the remote source is not consulted). -/
theorem find_example_sentence_local_priority (word : String)
    (pre post : List String) (s : String) (resp : RespWiki)
    (hw : pyLower word = word)
    (hpre : ∀ s2 ∈ pre, ci_contains s2 word = false)
    (hs : ci_contains s word = true) :
    find_example_sentence (pre ++ s :: post) word resp = pyStrip s := by
  simp only [find_example_sentence, firstLocal_eq_first_match word pre post s hw hpre hs]

/-- Witness for C8: the sentence `" Un astre brille.  "` matches the
lowercase word `"astre"` and is returned trimmed, with a remote response
that would have answered something else being ignored. -/
theorem find_example_sentence_local_priority_witness :
    find_example_sentence
        (["Rien de tel."] ++ " Un astre brille.  " :: ["Un autre astre."])
        "astre" (.ok (200, [some "Réponse distante"])) =
      pyStrip " Un astre brille.  " :=
  find_example_sentence_local_priority "astre" ["Rien de tel."] ["Un autre astre."]
    " Un astre brille.  " (.ok (200, [some "Réponse distante"]))
    (by decide) (by decide) (by decide)

/-! ## Claim C4 -/

/-- Counterexample to C4 as stated: two lexicon rows share the word
`"abcdefg"`; the second qualifies (`freq_total = 5 < 100`), the first does
not (`freq_total = 200`), yet the first row's word is in the set — so "the
row's word is in the set iff the row qualifies" fails for the first row. -/
theorem advanced_lemmas_row_iff_cex :
    pyLower "abcdefg" ∈
        advanced_lemmas [⟨"abcdefg", 200, 1⟩, ⟨"abcdefg", 5, 1⟩] ∧
      ¬((0 : ℚ) < (1 : ℚ) ∧ (200 : ℚ) < 100 ∧ 6 < ("abcdefg" : String).length) := by
  constructor
  · decide
  · intro h
    exact absurd h.2.1 (by norm_num)

/-- C4 (amended): a word is in the advanced-lemma set iff SOME lexicon row
with that lowercased word satisfies `freq_C2 > 0 ∧ freq_total < 100 ∧
len(word) > 6`; in particular every member of the set is the lowercased
form of such a word. (The per-row "iff" of the claim holds only when no
two rows share a lowercased word.) -/
theorem mem_advanced_lemmas_iff (rows : List LexRow) (w : String) :
    w ∈ advanced_lemmas rows ↔
      ∃ r ∈ rows, 0 < r.freq_C2 ∧ r.freq_total < 100 ∧ 6 < r.word.length ∧
        pyLower r.word = w := by
  simp only [advanced_lemmas, List.mem_map, List.mem_filter, rare_mask,
    Bool.and_eq_true, decide_eq_true_eq]
  constructor
  · rintro ⟨r, ⟨hr, ⟨h1, h2⟩, h3⟩, hw⟩
    exact ⟨r, hr, h1, h2, h3, hw⟩
  · rintro ⟨r, hr, h1, h2, h3, hw⟩
    exact ⟨r, ⟨hr, ⟨h1, h2⟩, h3⟩, hw⟩

/-! ## Claim C5 -/

/-- The code's five-conjunct boolean filter coincides with the spec's five
predicates. -/
lemma token_passes_eq_spec (adv excl : List String) (t : Token) :
    token_passes adv excl t = decide (spec_candidate adv excl t) := by
  rw [Bool.eq_iff_iff]
  simp only [token_passes, Bool.and_eq_true, decide_eq_true_eq, Bool.not_eq_true',
    decide_eq_false_iff_not, spec_candidate, List.mem_cons, List.not_mem_nil, or_false]
  tauto

/-- C5: a tagged token becomes a candidate iff all five predicates hold
conjointly — the token is alphabetic, its raw length exceeds 6, its
lowercased lemma is in the advanced-lemma set, its POS is one of
NOUN/VERB/ADJ/ADV, and its lowercased lemma is not in the exclusion set
(the static denylist united with the loaded common-word list); a token
failing any predicate is excluded. Stated as: the extractor equals the
filter by the spec's predicate followed by the candidate projection. -/
theorem clean_and_count_words_eq_spec_filter (nlp : String → List Token)
    (commonFile : Option (List String)) (adv : List String) (text : String) :
    clean_and_count_words (some nlp) commonFile adv text =
      ((nlp text).filter
          (fun t => decide
            (spec_candidate adv (static_excluded ++ common_words_of commonFile) t))).map
        (fun t => (pyLower t.lemma_, t.pos_)) := by
  simp only [clean_and_count_words]
  congr 1
  exact List.filter_congr (fun t _ => token_passes_eq_spec _ _ t)

/-! ## Claim C6 -/

lemma lexLe_total : ∀ a b : List Char, lexLe a b = true ∨ lexLe b a = true := by
  intro a
  induction a with
  | nil => intro b; left; rfl
  | cons x xs ih =>
    intro b
    cases b with
    | nil => right; rfl
    | cons y ys =>
      rcases Nat.lt_trichotomy x.toNat y.toNat with h | h | h
      · left; simp [lexLe, h]; omega
      · rcases ih ys with h2 | h2
        · left; simp [lexLe, h, h2]
        · right; simp [lexLe, h, h2]
      · right; simp [lexLe, h]; omega

lemma lexLe_trans : ∀ a b c : List Char,
    lexLe a b = true → lexLe b c = true → lexLe a c = true := by
  intro a
  induction a with
  | nil => intro b c _ _; rfl
  | cons x xs ih =>
    intro b c hab hbc
    cases b with
    | nil => simp [lexLe] at hab
    | cons y ys =>
      cases c with
      | nil => simp [lexLe] at hbc
      | cons z zs =>
        simp only [lexLe] at hab hbc ⊢
        rcases eq_or_ne x.toNat y.toNat with hxy | hxy <;>
          rcases eq_or_ne y.toNat z.toNat with hyz | hyz
        · rw [if_pos hxy] at hab
          rw [if_pos hyz] at hbc
          rw [if_pos (hxy.trans hyz)]
          exact ih ys zs hab hbc
        · rw [if_pos hxy] at hab
          rw [if_neg hyz] at hbc
          rw [if_neg (hxy ▸ hyz), hxy]
          exact hbc
        · rw [if_neg hxy] at hab
          rw [if_pos hyz] at hbc
          rw [if_neg (hyz ▸ hxy), ← hyz]
          exact hab
        · rw [if_neg hxy] at hab
          rw [if_neg hyz] at hbc
          simp only [decide_eq_true_eq] at hab hbc
          have hxz : x.toNat ≠ z.toNat := by omega
          rw [if_neg hxz]
          simp only [decide_eq_true_eq]
          omega

instance : IsTotal (String × String) lemmaAsc := ⟨fun _ _ => lexLe_total _ _⟩

instance : IsTrans (String × String) lemmaAsc := ⟨fun _ _ _ => lexLe_trans _ _ _⟩

/-- C6: for every batch of candidates and every valid draw of the random
sampler — a selection of pairs from `uniques` of size
`min 30 |uniques|` — the sorted sample `raritySort draw` (the value the
pipeline uses) contains only `(lemma, pos)` pairs whose batch-wide count
is exactly 1, has size `min 30 |uniques|`, and is sorted by lemma
ascending, regardless of the batch order and of which pairs were drawn. -/
theorem raritySample_props (allWords draw : List (String × String))
    (hsub : ∀ p ∈ draw, p ∈ uniquesOf allWords)
    (hlen : draw.length = min 30 (uniquesOf allWords).length) :
    (∀ p ∈ raritySort draw, allWords.count p = 1) ∧
      (raritySort draw).length = min 30 (uniquesOf allWords).length ∧
      (raritySort draw).Pairwise lemmaAsc := by
  refine ⟨?_, ?_, ?_⟩
  · intro p hp
    have hd : p ∈ draw := ((List.perm_insertionSort lemmaAsc draw).mem_iff).mp hp
    have hu : p ∈ uniquesOf allWords := hsub p hd
    have := (List.mem_filter.mp hu).2
    simpa using this
  · rw [raritySort, (List.perm_insertionSort lemmaAsc draw).length_eq]
    exact hlen
  · exact List.sorted_insertionSort lemmaAsc draw

/-- Witness for C6: a batch with one repeated pair and two singletons, and
a draw returning both singletons in reverse lemma order. -/
theorem raritySample_props_witness :
    (∀ p ∈ raritySort [("cc", "NOUN"), ("ab", "VERB")],
        ([("ba", "NOUN"), ("ab", "VERB"), ("cc", "NOUN"), ("ba", "NOUN")] :
          List (String × String)).count p = 1) ∧
      (raritySort [("cc", "NOUN"), ("ab", "VERB")]).length =
        min 30 (uniquesOf
          [("ba", "NOUN"), ("ab", "VERB"), ("cc", "NOUN"), ("ba", "NOUN")]).length ∧
      (raritySort [("cc", "NOUN"), ("ab", "VERB")]).Pairwise lemmaAsc :=
  raritySample_props
    [("ba", "NOUN"), ("ab", "VERB"), ("cc", "NOUN"), ("ba", "NOUN")]
    [("cc", "NOUN"), ("ab", "VERB")] (by decide) (by decide)

/-! ## Claim C10 -/

/-- Entering the entry loop with fewer articles than the cap, the result
stays within the cap, and strictly below it when the loop ends without the
early `return`. -/
lemma collectEntries_bound (max_articles : Nat) :
    ∀ (es : List Entry) (acc : List String), acc.length < max_articles →
      (collectEntries max_articles acc es).1.length ≤ max_articles ∧
        ((collectEntries max_articles acc es).2 = false →
          (collectEntries max_articles acc es).1.length < max_articles) := by
  intro es
  induction es with
  | nil =>
    intro acc h
    exact ⟨Nat.le_of_lt h, fun _ => h⟩
  | cons e es ih =>
    intro acc h
    rcases hs : e.summary with _ | s
    · rcases hd : e.description with _ | d
      · simp only [collectEntries, hs, hd]
        split
        · next hge => exact ⟨by omega, fun hf => by simp at hf⟩
        · next hge => exact ih acc h
      · simp only [collectEntries, hs, hd]
        split
        · next hge =>
          refine ⟨?_, fun hf => by simp at hf⟩
          simp only [List.length_append, List.length_singleton]
          omega
        · next hge =>
          apply ih
          simp only [List.length_append, List.length_singleton] at hge ⊢
          omega
    · simp only [collectEntries, hs]
      split
      · next hge =>
        refine ⟨?_, fun hf => by simp at hf⟩
        simp only [List.length_append, List.length_singleton]
        omega
      · next hge =>
        apply ih
        simp only [List.length_append, List.length_singleton] at hge ⊢
        omega

/-- The feed loop preserves the cap. -/
lemma fetch_articles_go_bound (max_articles : Nat) :
    ∀ (feeds : List RSSFeed) (acc : List String), acc.length < max_articles →
      (fetch_articles_from_rss.go max_articles acc feeds).length ≤ max_articles := by
  intro feeds
  induction feeds with
  | nil => intro acc h; exact Nat.le_of_lt h
  | cons f fs ih =>
    intro acc h
    rcases f with _ | entries
    · simp only [fetch_articles_from_rss.go]
      exact ih acc h
    · simp only [fetch_articles_from_rss.go]
      have hb := collectEntries_bound max_articles entries acc h
      rcases hc : collectEntries max_articles acc entries with ⟨articles2, early⟩
      rw [hc] at hb
      cases early with
      | true => exact hb.1
      | false => exact ih articles2 (hb.2 rfl)

/-- C10: for every `max_articles ≥ 1` and any feed contents,
`fetch_articles_from_rss` returns at most `max_articles` snippets (it
stops as soon as the cap is reached); and the bound indeed fails for
`max_articles = 0`, where a feed whose first entry has a summary still
yields one snippet, because the cap is checked only after appending. -/
theorem fetch_articles_cap
    : (∀ (max_articles : Nat) (feeds : List RSSFeed), 1 ≤ max_articles →
        (fetch_articles_from_rss max_articles feeds).length ≤ max_articles) ∧
      (fetch_articles_from_rss 0 [.ok [⟨some "article", none⟩]]).length = 1 := by
  constructor
  · intro max_articles feeds hcap
    exact fetch_articles_go_bound max_articles feeds [] (by simpa using hcap)
  · decide

/-- Witness for C10: at cap 1, a two-entry feed yields exactly one
snippet, within the bound. -/
theorem fetch_articles_cap_witness :
    (fetch_articles_from_rss 1 [.ok [⟨some "a", none⟩, ⟨some "b", none⟩]]).length ≤ 1 :=
  fetch_articles_cap.1 1 [.ok [⟨some "a", none⟩, ⟨some "b", none⟩]] (by decide)

/-! ## Concrete pipeline fixtures for claims C2 and C3 -/

/-- A token the extraction filters accept (given `"parcimonie"` in the
advanced-lemma set). -/
def tokNoun : Token := ⟨"parcimonie", "NOUN", true, 10⟩

/-- A pipeline environment in which every remote source fails (raises),
the local lexicon is empty, the tagger yields one valid candidate token
for any text, and the sampler draws the first `k` elements (one possible
`random.sample` outcome). -/
def envAllFail : PipelineEnv :=
  { tagger := some (fun _ => [tokNoun]),
    commonFile := none,
    adv := ["parcimonie"],
    srcA := fun _ => .error (),
    srcB := fun _ => .error (),
    srcC := fun _ => .error (),
    lexicon_defs := fun _ => none,
    wikiEx := fun _ => .error (),
    translate := fun _ => .error (),
    sampleFn := fun l k => l.take k }

/-- As `envAllFail`, but the tagger yields the same candidate twice per
document, so its batch-wide count is 2 and the rarity set is empty. -/
def envDupTagger : PipelineEnv :=
  { envAllFail with tagger := some (fun _ => [tokNoun, tokNoun]) }

/-- One feed with one entry whose summary is a text that does not contain
the candidate lemma. -/
def feedsOne : List RSSFeed := [.ok [⟨some "Texte quelconque", none⟩]]

/-! ## Claim C2 -/

/-- Counterexample to C2 as stated: candidates were extracted (the batch
is `[(parcimonie, NOUN), (parcimonie, NOUN)]`) and no pair has batch-wide
count 1, yet the run does NOT end in a distinct no-output terminal state:
it reaches the end of `run`, whose outcome `.wrote []` opens the output
file and writes the header line — an output file is produced and no
distinct empty-rarity report exists (only the no-article and no-candidate
states are reported distinctly). -/
theorem run_empty_rarity_writes_file_cex :
    allWordsOf envDupTagger feedsOne 10 ≠ [] ∧
      uniquesOf (allWordsOf envDupTagger feedsOne 10) = [] ∧
      run envDupTagger feedsOne 10 = .wrote [] := by
  refine ⟨by decide, by decide, by decide⟩

/-- C2 (amended): when candidates were extracted but no pair has
batch-wide count exactly 1, the run proceeds with the empty sample and
ends in `.wrote []` — it writes the output file containing only the header
and zero records, with no distinct report of the empty rarity set. (The
hypothesis on `sampleFn` is `random.sample`'s contract for an empty
population.) -/
theorem run_empty_rarity_wrote_nil (env : PipelineEnv) (feeds : List RSSFeed)
    (max_articles : Nat)
    (hwords : allWordsOf env feeds max_articles ≠ [])
    (huniq : uniquesOf (allWordsOf env feeds max_articles) = [])
    (hsample : env.sampleFn [] 0 = []) :
    run env feeds max_articles = .wrote [] := by
  rcases hA : fetch_articles_from_rss max_articles feeds with _ | ⟨a, as⟩
  · exact absurd (by simp [allWordsOf, hA]) hwords
  · rcases hW : allWordsOf env feeds max_articles with _ | ⟨w0, ws⟩
    · exact absurd hW hwords
    · rw [hW] at huniq
      simp only [run, hA, hW, huniq, List.isEmpty_cons, Bool.false_eq_true, if_false,
        List.length_nil, Nat.min_zero, hsample, raritySort, List.insertionSort,
        List.map_nil]

/-- Witness for C2 (amended): the duplicate-candidate environment
satisfies the hypotheses and yields `.wrote []`. -/
theorem run_empty_rarity_wrote_nil_witness :
    allWordsOf envDupTagger feedsOne 10 ≠ [] ∧
      run envDupTagger feedsOne 10 = .wrote [] :=
  ⟨by decide,
   run_empty_rarity_wrote_nil envDupTagger feedsOne 10 (by decide) (by decide) (by decide)⟩

/-! ## Claim C3 -/

/-- Counterexample to C3 as stated: with every remote source failing and
one document yielding exactly one valid candidate, the run does produce
exactly one flashcard record with empty `english` and the synthetic
example — but its `definition` field is the placeholder
`"(définition indisponible)"` substituted at src/hello.py line 301, not
the empty string the claim requires. -/
theorem run_all_fail_definition_cex :
    run envAllFail feedsOne 10 =
        .wrote [("parcimonie", indispo, default_example "parcimonie", "")] ∧
      indispo ≠ "" := by
  refine ⟨by decide, by decide⟩

/-- C3 (amended): if every remote source fails, the word is absent from
the local lexicon, and no ingested sentence contains it, running the
pipeline on a batch yielding exactly one valid candidate produces exactly
one flashcard record whose definition field is the placeholder
`"(définition indisponible)"` (not the empty string — the placeholder is
substituted before the record is assembled), whose english field is the
empty string, and whose example field is the non-empty synthetic default
sentence. -/
theorem run_single_candidate_all_sources_fail (env : PipelineEnv)
    (feeds : List RSSFeed) (max_articles : Nat) (w p : String)
    (hall : allWordsOf env feeds max_articles = [(w, p)])
    (ha : sourceA (env.srcA w) = none) (hb : sourceB (env.srcB w) = none)
    (hc : sourceC (env.srcC w) = none)
    (hd : env.lexicon_defs (pyLower w) = none ∨ env.lexicon_defs (pyLower w) = some "")
    (hlocal : firstLocal w (sentencesOf feeds max_articles) = none)
    (hwiki : wiki_lookup_failed (env.wikiEx w))
    (hsample : env.sampleFn [(w, p)] 1 = [(w, p)]) :
    run env feeds max_articles =
      .wrote [(w, indispo, default_example w, "")] ∧ default_example w ≠ "" := by
  have hdef : fetch_definition env.lexicon_defs w (env.srcA w) (env.srcB w) (env.srcC w) = "" :=
    fetch_definition_all_fail env.lexicon_defs w _ _ _ ha hb hc hd
  have hex : find_example_sentence (sentencesOf feeds max_articles) w (env.wikiEx w) =
      default_example w :=
    find_example_sentence_fallback _ w _ hlocal hwiki
  constructor
  · rcases hA : fetch_articles_from_rss max_articles feeds with _ | ⟨a, as⟩
    · have : allWordsOf env feeds max_articles = [] := by simp [allWordsOf, hA]
      rw [this] at hall
      exact absurd hall (by simp)
    · have huniq : uniquesOf [(w, p)] = [(w, p)] := by
        simp [uniquesOf]
      simp only [run, hA, hall, huniq, List.isEmpty_cons, Bool.false_eq_true, if_false,
        List.length_singleton]
      rw [show min 30 1 = 1 from rfl, hsample]
      simp only [raritySort, List.insertionSort, List.orderedInsert, List.map_cons,
        List.map_nil, makeFlashcard, hdef, hex]
      simp [indispo]
  · intro h
    have h2 := congrArg String.data h
    simp only [default_example, String.data_append, List.append_assoc] at h2
    rcases List.append_eq_nil.mp h2 with ⟨h3, _⟩
    exact absurd h3 (by decide)

/-- Witness for C3 (amended): the all-sources-failing environment on the
one-candidate document satisfies the hypotheses and yields the single
placeholder record. -/
theorem run_single_candidate_all_sources_fail_witness :
    allWordsOf envAllFail feedsOne 10 = [("parcimonie", "NOUN")] ∧
      (run envAllFail feedsOne 10 =
          .wrote [("parcimonie", indispo, default_example "parcimonie", "")] ∧
        default_example "parcimonie" ≠ "") :=
  ⟨by decide,
   run_single_candidate_all_sources_fail envAllFail feedsOne 10 "parcimonie" "NOUN"
     (by decide) rfl rfl rfl (Or.inl rfl) (by decide) (Or.inl ⟨(), rfl⟩) (by decide)⟩

end FrenchVocab
